import Mathlib

/-!
# Verification of the Advisory Hook Core

A shallow embedding, in Lean 4, of the two Node.js lifecycle hooks of the
`dev-accelerator` plugin repository:

* `plugin/dev-accelerator/hooks/on-file-change.js` — the **ChangeAdvisor**:
  given a batch of changed-file descriptors it inspects each file and returns
  categorized advisory messages (notifications / warnings / errors);
* `hooks/on-prompt-submit.js` — the **IntentClassifier**: given a raw prompt
  string it classifies it by ordered pattern matching and returns suggestion
  tips plus augmented metadata.

Strings are modelled as `List Char` (JavaScript strings are sequences of
code units; all the patterns involved are ASCII, and `List Char` gives
structural recursion the kernel can evaluate).  File-system reads, the
ESLint/Pylint shell-outs, and the possibility that `readFileSync` throws are
modelled by an explicit environment record `Env`; a read returning `none`
models a thrown I/O error (the hook's own `try`/`catch` semantics are then
made explicit in `processFile`).  Advisory messages are modelled as an
inductive type `Msg` whose constructors carry exactly the data the source
interpolates into each template string; the English template text itself is
formatting and is not re-proved.
-/

namespace DevAccel

/-- Left brace character, written via its code to keep string literals plain. -/
def lbrace : Char := '\x7b'

/-- Right brace character. -/
def rbrace : Char := '\x7d'

/-- ASCII lowercasing of a single character.  Models JavaScript
`String.prototype.toLowerCase` on the ASCII range, which is the only range
the hook's patterns (`.test.`, `.spec.`, `_test.`, `test_`) exercise. -/
def lowerChar (c : Char) : Char :=
  if 'A' ≤ c ∧ c ≤ 'Z' then Char.ofNat (c.toNat + 32) else c

/-- Whitespace class of the JavaScript regex `\s`, restricted to its ASCII
members (space, tab, line feed, carriage return, vertical tab, form feed). -/
def isSpaceChar (c : Char) : Bool :=
  c = ' ' || c = '\t' || c = '\n' || c = '\r' || c = '\x0b' || c = '\x0c'

/-- Word-character class of the JavaScript regex `\w`: `[A-Za-z0-9_]`. -/
def isWordChar (c : Char) : Bool :=
  ('a' ≤ c && c ≤ 'z') || ('A' ≤ c && c ≤ 'Z') || ('0' ≤ c && c ≤ '9') || c = '_'

/-- Definition `containsSub s pat` models JavaScript `s.includes(pat)`:
`pat` occurs as a contiguous substring of `s`. -/
def containsSub : List Char → List Char → Bool
  | [], pat => pat.isPrefixOf ([] : List Char)
  | s@(_ :: t), pat => pat.isPrefixOf s || containsSub t pat

/-- Index of the first occurrence of `pat` as a substring of `s`; models
JavaScript `s.indexOf(pat)` at call sites where the pattern is known to
occur (when `pat` does not occur the model returns `s.length` rather
than `-1`; the hook only calls `indexOf` on a string produced by a match
over `s`, where the two agree). -/
def indexOfSub : List Char → List Char → Nat
  | [], _ => 0
  | s@(_ :: t), pat => if pat.isPrefixOf s then 0 else indexOfSub t pat + 1

/-- Number of occurrences of the character `c` in `s`; models
`(s.match(/c/g) || []).length` for a single-character pattern. -/
def countChar (c : Char) (s : List Char) : Nat :=
  s.count c

/-- Definition `splitNl s` models JavaScript `s.split('\n')`: the list of
newline-delimited lines of `s`.  Always non-empty; `splitNl [] = [[]]`,
matching `''.split('\n') = ['']`. -/
def splitNl : List Char → List (List Char)
  | [] => [[]]
  | c :: rest =>
    if c = '\n' then [] :: splitNl rest
    else
      match splitNl rest with
      | [] => [[c]]
      | l :: ls => (c :: l) :: ls

/-- Definition `joinNl ls` models the JavaScript newline join of a list of lines. -/
def joinNl : List (List Char) → List Char
  | [] => []
  | [l] => l
  | l :: ls => l ++ '\n' :: joinNl ls

/-! ## Path utilities (Node.js `path` module, POSIX semantics)

The hook's paths are file paths (they never end in a separator), so the
models below implement Node's behaviour on that domain. -/

/-- Definition `path.basename(p)`: the portion of `p` after the last `'/'`. -/
def basename (p : List Char) : List Char :=
  (p.reverse.takeWhile (fun c => c ≠ '/')).reverse

/-- Definition `path.extname(p)`: from the last `'.'` of the basename to the end,
provided that `'.'` is not the basename's first character; `[]` otherwise. -/
def extname (p : List Char) : List Char :=
  match basename p with
  | [] => []
  | _ :: rest =>
    if rest.contains '.' then '.' :: (rest.reverse.takeWhile (fun c => c ≠ '.')).reverse
    else []

/-- Definition `path.basename(p, ext)`: the basename with the suffix `ext` stripped when
it is a proper suffix of the basename. -/
def basenameMinus (p ext : List Char) : List Char :=
  let b := basename p
  if ext ≠ [] ∧ ext.isSuffixOf b ∧ ext.length < b.length then
    b.take (b.length - ext.length)
  else b

/-- Definition `path.dirname(p)`: everything before the last `'/'`; `"."` when `p` has
no `'/'`; `"/"` when the last `'/'` is the first character. -/
def dirname (p : List Char) : List Char :=
  if p.contains '/' then
    let d := (p.reverse.dropWhile (fun c => c ≠ '/')).drop 1 |>.reverse
    if d = [] then ['/'] else d
  else ['.']

/-- Definition `path.join(d, n)` for `d` a `dirname` result and `n` a file name (the
only shape the hook builds): `"." ` joins to `n`, root joins to `"/" ++ n`,
and otherwise a `'/'` is interposed. -/
def joinPath (d n : List Char) : List Char :=
  if d = ['.'] then n
  else if d = ['/'] then '/' :: n
  else d ++ '/' :: n

/-! ## File classification (`on-file-change.js`) -/

/-- Definition `isTestFile` from `on-file-change.js`: the lowercased base name contains
`.test.`, `.spec.` or `_test.`, or starts with `test_`, or the raw path
contains the substring `/tests/`, `/test/` or `/__tests__/`. -/
def isTestFile (p : List Char) : Bool :=
  let fileName := (basename p).map lowerChar
  containsSub fileName (".test.").data ||
  containsSub fileName (".spec.").data ||
  containsSub fileName ("_test.").data ||
  ("test_").data.isPrefixOf fileName ||
  containsSub p ("/tests/").data ||
  containsSub p ("/test/").data ||
  containsSub p ("/__tests__/").data

/-- The fixed source-extension set of `isSourceFile`. -/
def sourceExts : List (List Char) :=
  [(".js").data, (".jsx").data, (".ts").data, (".tsx").data, (".py").data,
   (".java").data, (".go").data, (".rs").data, (".rb").data, (".php").data]

/-- Definition `isSourceFile` from `on-file-change.js`. -/
def isSourceFile (p : List Char) : Bool :=
  sourceExts.contains (extname p) && !isTestFile p

/-- Definition `getTestFilePath` from `on-file-change.js`: builds four candidate test
paths but returns only the first (primary) pattern
`join(dirname, basename-without-ext + ".test" + ext)`. -/
def getTestFilePath (p : List Char) : List Char :=
  let ext := extname p
  let baseName := basenameMinus p ext
  let dirName := dirname p
  joinPath dirName (baseName ++ (".test").data ++ ext)

/-! ## Counting textual matches

`on-file-change.js` counts regex matches with `(content.match(/…/g) || []).length`.
For a literal pattern a global match counts non-overlapping occurrences
scanning left to right; the fueled scanners below implement exactly that. -/

/-- Non-overlapping occurrence count of a literal pattern, scanning left to
right (the semantics of `s.match(/pat/g)` for a literal `pat`); `fuel` is an
upper bound on the scan length, instantiated with `s.length`. -/
def countSubAux : Nat → List Char → List Char → Nat
  | 0, _, _ => 0
  | _ + 1, [], _ => 0
  | fuel + 1, s@(_ :: t), pat =>
    if pat.isPrefixOf s ∧ pat ≠ [] then countSubAux fuel (s.drop pat.length) pat + 1
    else countSubAux fuel t pat

/-- Count of non-overlapping occurrences of `pat` in `s`. -/
def countSub (s pat : List Char) : Nat :=
  countSubAux s.length s pat

/-- Attempts the TODO/FIXME comment pattern `\/\/\s*(TODO|FIXME)` at the head
of `s`; returns the matched length on success. -/
def matchTodoAt (s : List Char) : Option Nat :=
  if ("//").data.isPrefixOf s then
    let rest := s.drop 2
    let ws := rest.takeWhile isSpaceChar
    let after := rest.drop ws.length
    if ("TODO").data.isPrefixOf after ∨ ("FIXME").data.isPrefixOf after then
      some (2 + ws.length + 4 + (if ("FIXME").data.isPrefixOf after then 1 else 0))
    else none
  else none

/-- Global count of the TODO/FIXME pattern, scanning left to right with
non-overlapping matches. -/
def countTodosAux : Nat → List Char → Nat
  | 0, _ => 0
  | _ + 1, [] => 0
  | fuel + 1, s@(_ :: t) =>
    match matchTodoAt s with
    | some n => countTodosAux fuel (s.drop n) + 1
    | none => countTodosAux fuel t

/-- Number of matches of `(content.match(/\/\/\s*(TODO|FIXME)/g) || [])`. -/
def countTodos (s : List Char) : Nat :=
  countTodosAux s.length s

/-- Attempts the named-function-declaration pattern
`function\s+\w+\s*\([^)]*\)\s*\x7b` at the head of `s`; returns the matched
text on success.  Each quantified class here is disjoint from the token that
follows it, so the greedy scan below is exactly the regex's behaviour. -/
def matchFunctionAt (s : List Char) : Option (List Char) :=
  if ("function").data.isPrefixOf s then
    let s1 := s.drop 8
    let ws1 := s1.takeWhile isSpaceChar
    if ws1 = [] then none else
    let s2 := s1.drop ws1.length
    let name := s2.takeWhile isWordChar
    if name = [] then none else
    let s3 := s2.drop name.length
    let ws2 := s3.takeWhile isSpaceChar
    let s4 := s3.drop ws2.length
    match s4 with
    | '(' :: s5 =>
      let args := s5.takeWhile (fun c => c ≠ ')')
      match s5.drop args.length with
      | ')' :: s6 =>
        let ws3 := s6.takeWhile isSpaceChar
        match s6.drop ws3.length with
        | c :: _ =>
          if c = lbrace then
            some (("function").data ++ ws1 ++ name ++ ws2 ++
                  '(' :: args ++ ')' :: ws3 ++ [lbrace])
          else none
        | [] => none
      | _ => none
    | _ => none
  else none

/-- All matches of `content.match(/function\s+\w+\s*\([^)]*\)\s*\x7b/g)`,
scanning left to right with non-overlapping matches. -/
def scanFuncsAux : Nat → List Char → List (List Char)
  | 0, _ => []
  | _ + 1, [] => []
  | fuel + 1, s@(_ :: t) =>
    match matchFunctionAt s with
    | some m => m :: scanFuncsAux fuel (s.drop m.length)
    | none => scanFuncsAux fuel t

/-- The list `functions` of the long-function heuristic. -/
def jsFunctionMatches (content : List Char) : List (List Char) :=
  scanFuncsAux content.length content

/-- The window inspected by the long-function heuristic for the match
`func`: `content.slice(content.indexOf(func))`, split on newlines, truncated
to the first 100 lines and re-joined. -/
def funcWindow (content func : List Char) : List Char :=
  let funcBody := content.drop (indexOfSub content func)
  joinNl ((splitNl funcBody).take 100)

/-- The firing condition of the long-function heuristic for one match:
the re-split window has more than 100 lines and its brace count is balanced
(`lines.split('\n').length > 100 && braceCount === 0`). -/
def longFuncHit (content func : List Char) : Bool :=
  let lines := funcWindow content func
  decide ((splitNl lines).length > 100) &&
    (countChar lbrace lines == countChar rbrace lines)

/-! ## The data model -/

/-- Advisory messages.  Each constructor models one template string of the
hooks, carrying exactly the values the source interpolates into it:
e.g. `consoleLogWarning n b` is
`"⚠️  Found ${n} console.log statement(s) in ${b}"`. -/
inductive Msg where
  /-- Template `⚠️  Found ${n} console.log statement(s) in ${base}` -/
  | consoleLogWarning (n : Nat) (base : List Char)
  /-- Template `📝 Found ${n} TODO/FIXME comment(s) in ${base}` -/
  | todoNote (n : Nat) (base : List Char)
  /-- Template `✅ ESLint: ${base} passed` -/
  | eslintPass (base : List Char)
  /-- Template `⚠️  ESLint found ${n} issue(s) in ${base}` -/
  | eslintIssues (n : Nat) (base : List Char)
  /-- Template `Potentially long function detected in ${base}` -/
  | longFunc (base : List Char)
  /-- Template `Found ${n} print statement(s) in ${base}` -/
  | printWarning (n : Nat) (base : List Char)
  /-- Template `✅ Pylint: ${base} passed` -/
  | pylintPass (base : List Char)
  /-- Template `Pylint found issues in ${base}` -/
  | pylintIssues (base : List Char)
  /-- Template `✅ Test file ${base} modified` -/
  | testFileModified (base : List Char)
  /-- Template `⚠️  No test file found for ${base}. Consider creating ${baseTest}` -/
  | noTestFile (base baseTest : List Char)
  /-- Template `⚠️  ${base} is ${n} lines. Consider breaking into smaller modules.` -/
  | tooLong (base : List Char) (n : Nat)
  deriving DecidableEq, Repr

/-- Outcome of an external lint-tool shell-out (`execSync`): `pass` models a
zero exit; `fail stdout` models a thrown error whose `stdout` property is
`stdout` (with `none` for a missing/empty capture, e.g. the tool is not
installed). -/
inductive ToolResult where
  | pass
  | fail (stdout : Option (List Char))
  deriving DecidableEq, Repr

/-- The environment a ChangeAdvisor call runs against: the filesystem and
the two lint tools.  `readFile p = none` models `fs.readFileSync(p)`
throwing (I/O error), the hook's per-file `try`/`catch` target. -/
structure Env where
  fsExists : List Char → Bool
  readFile : List Char → Option (List Char)
  eslint : List Char → ToolResult
  pylint : List Char → ToolResult

/-- Definition `FileChange.changeType` (destructured but never used by the hook). -/
inductive ChangeType where
  | created
  | modified
  | deleted
  deriving DecidableEq, Repr

/-- A changed-file descriptor. -/
structure FileChange where
  filePath : List Char
  changeType : ChangeType

/-- A file-change batch (`operation` only reaches the diagnostic log). -/
structure ChangeEvent where
  files : List FileChange
  operation : List Char

/-- The categorized advisory result of `advise`.  The source converts an
empty array to `undefined` on return; the spec's data model states the core
treats the two identically, so the model keeps the lists. -/
structure AdvisoryResult where
  notifications : List Msg
  warnings : List Msg
  errors : List Msg
  deriving DecidableEq, Repr

/-- Extensions dispatched to the JavaScript/TypeScript sub-check. -/
def jsExts : List (List Char) :=
  [(".js").data, (".jsx").data, (".ts").data, (".tsx").data]

/-! ## The ChangeAdvisor (`on-file-change.js`) -/

/-- The `console.log` count warning of `checkJavaScript`:
one warning when the count is positive. -/
def consoleWarns (content b : List Char) : List Msg :=
  let cl := countSub content (("console.log(").data)
  if cl > 0 then [Msg.consoleLogWarning cl b] else []

/-- The TODO/FIXME count notification of `checkJavaScript`. -/
def todoNotes (content b : List Char) : List Msg :=
  let td := countTodos content
  if td > 0 then [Msg.todoNote td b] else []

/-- The notification side of the ESLint step of `checkJavaScript`: a pass
notification on clean exit, nothing on failure. -/
def eslintNotes (r : ToolResult) (b : List Char) : List Msg :=
  match r with
  | .pass => [Msg.eslintPass b]
  | .fail _ => []

/-- The warning side of the ESLint step: on failure with non-empty captured
stdout, a warning carrying the textual occurrence count of `error` when that
count is positive; silence otherwise (tool unavailable / no output). -/
def eslintWarns (r : ToolResult) (b : List Char) : List Msg :=
  match r with
  | .pass => []
  | .fail none => []
  | .fail (some out) =>
    if out ≠ [] then
      let ic := countSub out (("error").data)
      if ic > 0 then [Msg.eslintIssues ic b] else []
    else []

/-- The long-function heuristic of `checkJavaScript`: one warning when some
match fires the condition (the loop pushes at the first firing match and
breaks, so at most one warning is pushed). -/
def longFuncWarns (content b : List Char) : List Msg :=
  if (jsFunctionMatches content).any (fun f => longFuncHit content f)
  then [Msg.longFunc b] else []

/-- Definition `checkJavaScript` from `on-file-change.js`.  Returns `none` when the
file read throws (the exception propagates to the caller's catch); a missing
file returns early with no messages.  The result pairs the pushed
notifications with the pushed warnings, each in push order. -/
def checkJavaScript (env : Env) (p : List Char) : Option (List Msg × List Msg) :=
  if !env.fsExists p then some ([], [])
  else
    match env.readFile p with
    | none => none
    | some content =>
      let b := basename p
      some (todoNotes content b ++ eslintNotes (env.eslint p) b,
            consoleWarns content b ++ eslintWarns (env.eslint p) b ++
              longFuncWarns content b)

/-- The `print(` count warning of `checkPython`. -/
def printWarns (content b : List Char) : List Msg :=
  let pr := countSub content (("print(").data)
  if pr > 0 then [Msg.printWarning pr b] else []

/-- The notification side of the Pylint step of `checkPython`: a pass
notification on clean exit. -/
def pylintNotes (r : ToolResult) (b : List Char) : List Msg :=
  match r with
  | .pass => [Msg.pylintPass b]
  | .fail _ => []

/-- The warning side of the Pylint step: on failure with non-empty captured
stdout, a generic issues warning (no count parsing); silence otherwise. -/
def pylintWarns (r : ToolResult) (b : List Char) : List Msg :=
  match r with
  | .pass => []
  | .fail none => []
  | .fail (some out) =>
    if out ≠ [] then [Msg.pylintIssues b] else []

/-- Definition `checkPython` from `on-file-change.js`, with the same conventions as
`checkJavaScript`. -/
def checkPython (env : Env) (p : List Char) : Option (List Msg × List Msg) :=
  if !env.fsExists p then some ([], [])
  else
    match env.readFile p with
    | none => none
    | some content =>
      let b := basename p
      some (pylintNotes (env.pylint p) b,
            printWarns content b ++ pylintWarns (env.pylint p) b)

/-- The test-file notification step of the per-file loop: one notification
when the path is classified as a test file. -/
def testNotes (p : List Char) : List Msg :=
  if isTestFile p then [Msg.testFileModified (basename p)] else []

/-- The missing-test-file step of the per-file loop: for a non-test source
file whose primary conventional test path does not exist, one warning naming
that conventional test file. -/
def missingTestWarns (env : Env) (p : List Char) : List Msg :=
  if !isTestFile p && isSourceFile p && !env.fsExists (getTestFilePath p)
  then [Msg.noTestFile (basename p) (basename (getTestFilePath p))]
  else []

/-- The size-check step of the per-file loop: if the file exists and its
read succeeds, count newline-delimited lines and warn when the count
exceeds 600.  A failed read yields nothing (the exception is recorded by
`sizeReadFails`). -/
def sizeWarns (env : Env) (p : List Char) : List Msg :=
  if env.fsExists p then
    match env.readFile p with
    | none => []
    | some c =>
      let ln := (splitNl c).length
      if ln > 600 then [Msg.tooLong (basename p) ln] else []
  else []

/-- Whether the size-check read throws: the file exists but reading it
fails.  This is the last statement of the per-file `try` block, so nothing
pushed earlier is lost when it throws. -/
def sizeReadFails (env : Env) (p : List Char) : Bool :=
  env.fsExists p && (env.readFile p).isNone

/-- One iteration of the per-file loop of `on-file-change.js`: the
notifications and warnings pushed for this file, in push order, plus a flag
recording whether an exception was caught for it.  A sub-check read failure
aborts the whole iteration with nothing pushed (the sub-check runs first);
a size-check read failure keeps everything already pushed. -/
def processFile (env : Env) (p : List Char) : List Msg × List Msg × Bool :=
  let ext := extname p
  let sub : Option (List Msg × List Msg) :=
    if jsExts.contains ext then checkJavaScript env p
    else if ext = (".py").data then checkPython env p
    else some ([], [])
  match sub with
  | none => ([], [], true)
  | some (n1, w1) =>
    (n1 ++ testNotes p,
     w1 ++ missingTestWarns env p ++ sizeWarns env p,
     sizeReadFails env p)

/-- The per-file loop: concatenates each file's pushes in file order. -/
def adviseFiles (env : Env) : List FileChange → List Msg × List Msg
  | [] => ([], [])
  | f :: rest =>
    let r := processFile env f.filePath
    let acc := adviseFiles env rest
    (r.1 ++ acc.1, r.2.1 ++ acc.2)

/-- The ChangeAdvisor entry point (`module.exports` of `on-file-change.js`).
Nothing in the source ever pushes to `errors`, so the errors list is the
empty list on every path. -/
def advise (env : Env) (event : ChangeEvent) : AdvisoryResult :=
  { notifications := (adviseFiles env event.files).1
    warnings := (adviseFiles env event.files).2
    errors := [] }

/-! ## The IntentClassifier (`on-prompt-submit.js`) -/

/-- The classifier's intents, in the source's fixed order, plus the
fallback `general`. -/
inductive Intent where
  | codeReview
  | refactoring
  | testing
  | general
  deriving DecidableEq, Repr

/-- The JavaScript string naming each intent. -/
def intentName : Intent → List Char
  | .codeReview => ("codeReview").data
  | .refactoring => ("refactoring").data
  | .testing => ("testing").data
  | .general => ("general").data

/-- Line terminators that the JavaScript regex `.` (without the `s` flag)
does not match. -/
def isLineTerm (c : Char) : Bool :=
  c = '\n' || c = '\r' || c = '\u2028' || c = '\u2029'

/-- Definition `.*pat` matched from the current position: skip any number of
non-line-terminator characters, then match the literal `pat`. -/
def matchDotStarThen (pat : List Char) : List Char → Bool
  | [] => pat.isPrefixOf ([] : List Char)
  | s@(c :: t) => pat.isPrefixOf s || (!isLineTerm c && matchDotStarThen pat t)

/-- Whether `analyze.*code` matches somewhere in `s`. -/
def matchAnalyzeCode : List Char → Bool
  | [] => false
  | s@(_ :: t) =>
    (("analyze").data.isPrefixOf s && matchDotStarThen ("code").data (s.drop 7)) ||
      matchAnalyzeCode t

/-- Definition `patterns.codeReview.test(prompt)`: the regex `/review|check|analyze.*code/i`. -/
def matchCodeReview (prompt : List Char) : Bool :=
  let q := prompt.map lowerChar
  containsSub q ("review").data || containsSub q ("check").data || matchAnalyzeCode q

/-- Definition `patterns.refactoring.test(prompt)`: the regex `/refactor|clean|improve/i`. -/
def matchRefactoring (prompt : List Char) : Bool :=
  let q := prompt.map lowerChar
  containsSub q ("refactor").data || containsSub q ("clean").data ||
    containsSub q ("improve").data

/-- Definition `patterns.testing.test(prompt)`: the regex `/test|spec|coverage/i`. -/
def matchTesting (prompt : List Char) : Bool :=
  let q := prompt.map lowerChar
  containsSub q ("test").data || containsSub q ("spec").data ||
    containsSub q ("coverage").data

/-- The ordered `(intent, pattern)` list the classifier iterates
(`Object.entries(patterns)` preserves this insertion order). -/
def patternList : List (Intent × (List Char → Bool)) :=
  [(Intent.codeReview, matchCodeReview),
   (Intent.refactoring, matchRefactoring),
   (Intent.testing, matchTesting)]

/-- The detection loop: first matching intent wins, `general` if none. -/
def detectLoop : List (Intent × (List Char → Bool)) → List Char → Intent
  | [], _ => Intent.general
  | (i, m) :: rest, p => if m p then i else detectLoop rest p

/-- Definition `detectedIntent` as computed by `on-prompt-submit.js`. -/
def detectIntent (p : List Char) : Intent :=
  detectLoop patternList p

/-- The fixed suggestion strings the `switch` pushes for each intent. -/
def suggestionsFor : Intent → List (List Char)
  | .codeReview =>
    [("💡 Tip: Use /smart-review command for structured code review").data,
     ("💡 Smart review checks for bugs, security issues, and best practices").data]
  | .refactoring =>
    [("💡 Tip: The safe-refactoring skill ensures you refactor safely with tests").data,
     ("💡 Remember: refactor in small steps, running tests after each change").data]
  | .testing =>
    [("💡 Tip: Use /gen-tests command to generate comprehensive test suites").data,
     ("💡 The test-generator subagent can autonomously create tests").data]
  | .general => []

/-- A metadata value: the loosely typed values a metadata mapping can hold.
The classifier only ever adds a string (the intent name) and a string list
(the suggestions); incoming values are opaque. -/
inductive MVal where
  | nat (n : Nat)
  | str (s : List Char)
  | strList (l : List (List Char))
  deriving DecidableEq, Repr

/-- A metadata mapping, modelled by lookup: `m k = none` means the key is
absent or holds JavaScript `undefined` (property reads cannot tell the two
apart, and JSON serialization drops both). -/
def Meta : Type := List Char → Option MVal

/-- A prompt-submission event.  The `files` sequence of the source is read
only for its length, which reaches only the diagnostic log, so it is not
modelled. -/
structure PromptEvent where
  prompt : List Char
  metadata : Meta

/-- The classifier's return value. -/
structure IntentResult where
  prompt : List Char
  metadata : Meta

/-- The returned metadata object
`{ ...metadata, detectedIntent, suggestions: … }`: a shallow union in which
the two added keys override incoming ones, and `suggestions` is bound to
`undefined` (here: absent) when the suggestion list is empty. -/
def classifyMeta (m : Meta) (p : List Char) : Meta :=
  let d := detectIntent p
  let sugg := suggestionsFor d
  fun k =>
    if k = ("suggestions").data then
      if sugg ≠ [] then some (MVal.strList sugg) else none
    else if k = ("detectedIntent").data then some (MVal.str (intentName d))
    else m k

/-- The IntentClassifier entry point (`module.exports` of
`on-prompt-submit.js`): the prompt passes through unmodified
(`enhancedPrompt = prompt` is never reassigned) and the metadata is the
shallow union above. -/
def classify (e : PromptEvent) : IntentResult :=
  { prompt := e.prompt
    metadata := classifyMeta e.metadata e.prompt }

/-! ## Message classifiers and the spec-side test-file model -/

/-- Classifies the messages a language sub-check (`checkJavaScript` /
`checkPython`) can emit.  The test-file notification, the missing-test
warning, the size warning — and, the heuristic being dead code, the
long-function warning — never come from a sub-check. -/
def subcheckMsg : Msg → Bool
  | .testFileModified _ => false
  | .noTestFile _ _ => false
  | .tooLong _ _ => false
  | .longFunc _ => false
  | _ => true

/-- A one-file change event. -/
def oneFileEvent (f : FileChange) (op : List Char) : ChangeEvent :=
  { files := [f], operation := op }

/-! ## Concrete environments and inputs for the claim theorems -/

/-- The first function match of the C1 counterexample file. -/
def c1func : List Char := ("function foo() \x7b").data

/-- The C1 counterexample file content: a named function declaration whose
brace block closes on the second line, followed by enough blank lines that
the heuristic's 100-line window is fully consumed (102 lines in all). -/
def c1content : List Char :=
  ("function foo() \x7b\n\x7d").data ++ List.replicate 100 '\n' ++ ("x").data

/-- Environment for the C1 counterexample: only `a.js` exists, holding
`c1content`; both lint tools are unavailable. -/
def env1 : Env :=
  { fsExists := fun q => q == ("a.js").data
    readFile := fun q => if q == ("a.js").data then some c1content else none
    eslint := fun _ => ToolResult.fail none
    pylint := fun _ => ToolResult.fail none }

/-- The single-file change event delivering `a.js`. -/
def ev1 : ChangeEvent :=
  { files := [{ filePath := ("a.js").data, changeType := ChangeType.modified }]
    operation := ("write").data }

/-- Environment for the C7 counterexample: only `a/Main.java` exists, and
every read throws. -/
def env7 : Env :=
  { fsExists := fun q => q == ("a/Main.java").data
    readFile := fun _ => none
    eslint := fun _ => ToolResult.fail none
    pylint := fun _ => ToolResult.fail none }

/-- The single-file change event delivering `a/Main.java`. -/
def ev7 : ChangeEvent :=
  { files := [{ filePath := ("a/Main.java").data, changeType := ChangeType.modified }]
    operation := ("write").data }

/-- Definition `splitSlash p` splits a path into its `'/'`-separated segments. -/
def splitSlash : List Char → List (List Char)
  | [] => [[]]
  | c :: rest =>
    if c = '/' then [] :: splitSlash rest
    else
      match splitSlash rest with
      | [] => [[c]]
      | l :: ls => (c :: l) :: ls

/-- Modelled from the spec, for comparison with the source's `isTestFile`:
the claim's classification, under which a path is a test file when its base
name contains `.test.`, `.spec.` or `_test.` or starts with `test_`, or the
path contains a **path segment** `tests`, `test` or `__tests__`.  (The
source instead tests for the substrings `/tests/`, `/test/`, `/__tests__/`,
which a leading segment such as `tests/...` does not contain.) -/
def isTestFileSpec (p : List Char) : Bool :=
  let fileName := (basename p).map lowerChar
  containsSub fileName ((".test.").data) ||
  containsSub fileName ((".spec.").data) ||
  containsSub fileName (("_test.").data) ||
  (("test_").data).isPrefixOf fileName ||
  (splitSlash p).contains (("tests").data) ||
  (splitSlash p).contains (("test").data) ||
  (splitSlash p).contains (("__tests__").data)

/-- Environment for the C4 counterexample: nothing exists on disk. -/
def env4 : Env :=
  { fsExists := fun _ => false
    readFile := fun _ => none
    eslint := fun _ => ToolResult.fail none
    pylint := fun _ => ToolResult.fail none }

/-- The single-file change event delivering `tests/foo.js`. -/
def ev4 : ChangeEvent :=
  { files := [{ filePath := ("tests/foo.js").data, changeType := ChangeType.modified }]
    operation := ("write").data }

/-- Environment for the C4 witness: nothing exists on disk. -/
def envW4 : Env :=
  { fsExists := fun _ => false
    readFile := fun _ => none
    eslint := fun _ => ToolResult.fail none
    pylint := fun _ => ToolResult.fail none }

/-- The single-file change event delivering `src/utils.test.js`. -/
def evW4 : ChangeEvent :=
  { files := [{ filePath := ("src/utils.test.js").data, changeType := ChangeType.modified }]
    operation := ("write").data }

/-- The C5 source path. -/
def calcPath : List Char := ("src/calc.js").data

/-- Environment for the C5 witness: nothing exists, reads yield the empty
file. -/
def envW5 : Env :=
  { fsExists := fun _ => false
    readFile := fun _ => some []
    eslint := fun _ => ToolResult.fail none
    pylint := fun _ => ToolResult.fail none }

/-- Recognizes the size-decomposition warning. -/
def isSizeMsg : Msg → Bool
  | .tooLong _ _ => true
  | _ => false

/-- Environment for the C6 witness: everything exists; `a/b.go` reads as
601 newline-delimited lines, every other path as 600. -/
def env6 : Env :=
  { fsExists := fun _ => true
    readFile := fun q => if q == ("a/b.go").data then some (List.replicate 600 '\n')
                         else some (List.replicate 599 '\n')
    eslint := fun _ => ToolResult.fail none
    pylint := fun _ => ToolResult.fail none }

/-- The C2 example prompt. -/
def refactorPrompt : List Char := ("please refactor this messy function").data

/-- The concrete input metadata of the C8 example: `{a: 1}`. -/
def metaA1 : Meta :=
  fun k => if k == ("a").data then some (MVal.nat 1) else none

/-! ## Lemmas about newline splitting -/

theorem splitNl_ne_nil (s : List Char) : splitNl s ≠ [] := by
  induction s with
  | nil => simp [splitNl]
  | cons c rest ih =>
    simp only [splitNl]
    split
    · simp
    · cases h : splitNl rest with
      | nil => simp
      | cons l ls => simp

/-- Every line produced by `splitNl` is free of the `'\n'` character. -/
theorem splitNl_no_newline (s : List Char) :
    ∀ l ∈ splitNl s, '\n' ∉ l := by
  induction s with
  | nil => intro l hl; simp [splitNl] at hl; simp [hl]
  | cons c rest ih =>
    intro l hl
    simp only [splitNl] at hl
    split at hl
    · rcases List.mem_cons.mp hl with h | h
      · simp [h]
      · exact ih l h
    · rename_i hc
      cases h : splitNl rest with
      | nil => exact absurd h (splitNl_ne_nil rest)
      | cons l0 ls =>
        rw [h] at hl
        rcases List.mem_cons.mp hl with h1 | h1
        · subst h1
          intro hmem
          rcases List.mem_cons.mp hmem with h2 | h2
          · exact hc h2.symm
          · exact ih l0 (h ▸ List.mem_cons_self l0 ls) h2
        · exact ih l (h ▸ List.mem_cons_of_mem l0 h1)

/-- Splitting a single newline-free line returns just that line. -/
theorem splitNl_of_no_newline (l : List Char) (h : '\n' ∉ l) :
    splitNl l = [l] := by
  induction l with
  | nil => simp [splitNl]
  | cons c rest ih =>
    simp only [splitNl]
    have hc : ¬ (c = '\n') := fun hh => h (by simp [hh])
    rw [if_neg hc]
    have hrest : '\n' ∉ rest := fun hh => h (List.mem_cons_of_mem c hh)
    rw [ih hrest]

/-- Splitting a string that starts with a newline-free line followed by a
newline peels off that line. -/
theorem splitNl_append_newline (l t : List Char) (hl : '\n' ∉ l) :
    splitNl (l ++ '\n' :: t) = l :: splitNl t := by
  induction l with
  | nil => simp [splitNl]
  | cons c cs ih =>
    have hc : ¬ (c = '\n') := fun hh => hl (by simp [hh])
    have hcs : '\n' ∉ cs := fun hh => hl (List.mem_cons_of_mem c hh)
    simp only [List.cons_append, splitNl, if_neg hc, List.append_eq]
    rw [ih hcs]

/-- Round trip: re-splitting a `'\n'`-join of newline-free lines gives the
lines back (for a non-empty list of lines). -/
theorem splitNl_joinNl (ls : List (List Char)) (hne : ls ≠ [])
    (h : ∀ l ∈ ls, '\n' ∉ l) : splitNl (joinNl ls) = ls := by
  induction ls with
  | nil => exact absurd rfl hne
  | cons l rest ih =>
    cases rest with
    | nil =>
      simp only [joinNl]
      exact splitNl_of_no_newline l (h l (by simp))
    | cons l2 rest2 =>
      have hjoin : joinNl (l :: l2 :: rest2) = l ++ '\n' :: joinNl (l2 :: rest2) := rfl
      rw [hjoin]
      have hl : '\n' ∉ l := h l (by simp)
      have htail : splitNl (joinNl (l2 :: rest2)) = l2 :: rest2 :=
        ih (by simp) (fun x hx => h x (List.mem_cons_of_mem l hx))
      rw [splitNl_append_newline l _ hl, htail]

/-- The length of `splitNl (joinNl (take n ls))` is at most `n` (for lines
already produced by a `splitNl`); this is the arithmetic heart of the
long-function heuristic being dead code. -/
theorem splitNl_joinNl_take_le (s : List Char) (n : Nat) :
    (splitNl (joinNl ((splitNl s).take n))).length ≤ max n 1 := by
  cases h : (splitNl s).take n with
  | nil =>
    simp only [joinNl, splitNl, List.length_singleton]
    omega
  | cons l ls =>
    have hmem : ∀ x ∈ (splitNl s).take n, '\n' ∉ x := by
      intro x hx
      exact splitNl_no_newline s x (List.mem_of_mem_take hx)
    rw [← h]
    rw [splitNl_joinNl _ (by rw [h]; simp) hmem]
    have := List.length_take_le n (splitNl s)
    omega

/-! ## Structural lemmas about the ChangeAdvisor -/

/-- The firing condition of the long-function heuristic is unsatisfiable:
the inspected window is `slice(0, 100)` of the function body's lines, so
re-splitting it can never yield more than 100 lines. -/
theorem longFuncHit_false (content func : List Char) :
    longFuncHit content func = false := by
  have h := splitNl_joinNl_take_le (content.drop (indexOfSub content func)) 100
  have hmax : max 100 1 = 100 := by decide
  rw [hmax] at h
  have hd : decide ((splitNl (joinNl ((splitNl
      (content.drop (indexOfSub content func))).take 100))).length > 100) = false :=
    decide_eq_false (by omega)
  simp only [longFuncHit, funcWindow]
  rw [hd, Bool.false_and]

/-- Hence the heuristic's warning list is always empty. -/
theorem longFuncWarns_nil (content b : List Char) :
    longFuncWarns content b = [] := by
  simp [longFuncWarns, longFuncHit_false]

theorem mem_ite_singleton {c : Prop} [Decidable c] {m a : Msg}
    (h : m ∈ (if c then [a] else ([] : List Msg))) : m = a := by
  split at h
  · simpa using h
  · simp at h

theorem consoleWarns_mem {content b : List Char} {m : Msg}
    (h : m ∈ consoleWarns content b) :
    m = Msg.consoleLogWarning (countSub content (("console.log(").data)) b := by
  exact mem_ite_singleton h

theorem todoNotes_mem {content b : List Char} {m : Msg}
    (h : m ∈ todoNotes content b) : m = Msg.todoNote (countTodos content) b := by
  exact mem_ite_singleton h

theorem printWarns_mem {content b : List Char} {m : Msg}
    (h : m ∈ printWarns content b) :
    m = Msg.printWarning (countSub content (("print(").data)) b := by
  exact mem_ite_singleton h

theorem eslintNotes_mem {r : ToolResult} {b : List Char} {m : Msg}
    (h : m ∈ eslintNotes r b) : m = Msg.eslintPass b := by
  rcases r with _ | out
  · simpa [eslintNotes] using h
  · simp [eslintNotes] at h

theorem eslintWarns_mem {r : ToolResult} {b : List Char} {m : Msg}
    (h : m ∈ eslintWarns r b) : ∃ n, m = Msg.eslintIssues n b := by
  rcases r with _ | ⟨_ | out⟩
  · simp [eslintWarns] at h
  · simp [eslintWarns] at h
  · simp only [eslintWarns] at h
    split at h
    · split at h
      · exact ⟨_, by simpa using h⟩
      · simp at h
    · simp at h

theorem pylintNotes_mem {r : ToolResult} {b : List Char} {m : Msg}
    (h : m ∈ pylintNotes r b) : m = Msg.pylintPass b := by
  rcases r with _ | out
  · simpa [pylintNotes] using h
  · simp [pylintNotes] at h

theorem pylintWarns_mem {r : ToolResult} {b : List Char} {m : Msg}
    (h : m ∈ pylintWarns r b) : m = Msg.pylintIssues b := by
  rcases r with _ | ⟨_ | out⟩
  · simp [pylintWarns] at h
  · simp [pylintWarns] at h
  · simp only [pylintWarns] at h
    split at h
    · simpa using h
    · simp at h

/-- Every message emitted by `checkJavaScript` is a sub-check message (in
particular never a long-function warning: that branch is dead code). -/
theorem checkJavaScript_shape {env : Env} {p : List Char} {ns ws : List Msg}
    (h : checkJavaScript env p = some (ns, ws)) :
    (∀ m ∈ ns, subcheckMsg m = true) ∧ (∀ m ∈ ws, subcheckMsg m = true) := by
  simp only [checkJavaScript] at h
  split at h
  · simp only [Option.some.injEq, Prod.mk.injEq] at h
    obtain ⟨hn, hw⟩ := h
    subst hn; subst hw
    simp
  · split at h
    · simp at h
    · rename_i content heq
      simp only [Option.some.injEq, Prod.mk.injEq] at h
      obtain ⟨hn, hw⟩ := h
      subst hn; subst hw
      constructor
      · intro m hm
        rcases List.mem_append.mp hm with h1 | h1
        · rw [todoNotes_mem h1]; rfl
        · rw [eslintNotes_mem h1]; rfl
      · intro m hm
        rw [longFuncWarns_nil, List.append_nil] at hm
        rcases List.mem_append.mp hm with h1 | h1
        · rw [consoleWarns_mem h1]; rfl
        · obtain ⟨n, hn⟩ := eslintWarns_mem h1
          rw [hn]; rfl

/-- Every message emitted by `checkPython` is a sub-check message. -/
theorem checkPython_shape {env : Env} {p : List Char} {ns ws : List Msg}
    (h : checkPython env p = some (ns, ws)) :
    (∀ m ∈ ns, subcheckMsg m = true) ∧ (∀ m ∈ ws, subcheckMsg m = true) := by
  simp only [checkPython] at h
  split at h
  · simp only [Option.some.injEq, Prod.mk.injEq] at h
    obtain ⟨hn, hw⟩ := h
    subst hn; subst hw
    simp
  · split at h
    · simp at h
    · rename_i content heq
      simp only [Option.some.injEq, Prod.mk.injEq] at h
      obtain ⟨hn, hw⟩ := h
      subst hn; subst hw
      constructor
      · intro m hm
        rw [pylintNotes_mem hm]; rfl
      · intro m hm
        rcases List.mem_append.mp hm with h1 | h1
        · rw [printWarns_mem h1]; rfl
        · rw [pylintWarns_mem h1]; rfl

theorem testNotes_mem {p : List Char} {m : Msg}
    (h : m ∈ testNotes p) : m = Msg.testFileModified (basename p) := by
  exact mem_ite_singleton h

theorem missingTestWarns_mem {env : Env} {p : List Char} {m : Msg}
    (h : m ∈ missingTestWarns env p) :
    m = Msg.noTestFile (basename p) (basename (getTestFilePath p)) := by
  exact mem_ite_singleton h

theorem sizeWarns_mem {env : Env} {p : List Char} {m : Msg}
    (h : m ∈ sizeWarns env p) : ∃ n, m = Msg.tooLong (basename p) n := by
  simp only [sizeWarns] at h
  split at h
  · split at h
    · simp at h
    · split at h
      · exact ⟨_, by simpa using h⟩
      · simp at h
  · simp at h

/-- Anatomy of one loop iteration: either the sub-check threw (nothing
pushed, failure recorded), or the iteration is the sub-check's messages
followed by the test-notification, missing-test and size steps. -/
theorem processFile_cases (env : Env) (p : List Char) :
    processFile env p = ([], [], true) ∨
    ∃ ns ws,
      ((∀ m ∈ ns, subcheckMsg m = true) ∧ (∀ m ∈ ws, subcheckMsg m = true)) ∧
      processFile env p =
        (ns ++ testNotes p,
         ws ++ missingTestWarns env p ++ sizeWarns env p,
         sizeReadFails env p) := by
  simp only [processFile]
  split
  · exact Or.inl rfl
  · rename_i n1 w1 heq
    right
    refine ⟨n1, w1, ?_, rfl⟩
    split at heq
    · exact checkJavaScript_shape heq
    · split at heq
      · exact checkPython_shape heq
      · simp only [Option.some.injEq, Prod.mk.injEq] at heq
        obtain ⟨hn, hw⟩ := heq
        subst hn; subst hw
        simp

/-- When the file's read cannot throw, the sub-check succeeds. -/
theorem checkJavaScript_isSome (env : Env) (p : List Char)
    (h : env.fsExists p = true → env.readFile p ≠ none) :
    ∃ ns ws, checkJavaScript env p = some (ns, ws) := by
  simp only [checkJavaScript]
  split
  · exact ⟨[], [], rfl⟩
  · rename_i hex
    cases hr : env.readFile p with
    | none =>
      exact absurd hr (h (by simpa using hex))
    | some c => exact ⟨_, _, rfl⟩

theorem checkPython_isSome (env : Env) (p : List Char)
    (h : env.fsExists p = true → env.readFile p ≠ none) :
    ∃ ns ws, checkPython env p = some (ns, ws) := by
  simp only [checkPython]
  split
  · exact ⟨[], [], rfl⟩
  · rename_i hex
    cases hr : env.readFile p with
    | none =>
      exact absurd hr (h (by simpa using hex))
    | some c => exact ⟨_, _, rfl⟩

/-- Anatomy of one loop iteration when the file's read cannot throw: the
sub-check path never fails, so the decomposition is unconditional. -/
theorem processFile_decomp (env : Env) (p : List Char)
    (h : env.fsExists p = true → env.readFile p ≠ none) :
    ∃ ns ws,
      ((∀ m ∈ ns, subcheckMsg m = true) ∧ (∀ m ∈ ws, subcheckMsg m = true)) ∧
      processFile env p =
        (ns ++ testNotes p,
         ws ++ missingTestWarns env p ++ sizeWarns env p,
         sizeReadFails env p) := by
  simp only [processFile]
  split
  · rename_i heq
    exfalso
    split at heq
    · obtain ⟨ns, ws, hs⟩ := checkJavaScript_isSome env p h
      rw [hs] at heq
      exact Option.noConfusion heq
    · split at heq
      · obtain ⟨ns, ws, hs⟩ := checkPython_isSome env p h
        rw [hs] at heq
        exact Option.noConfusion heq
      · exact Option.noConfusion heq
  · rename_i n1 w1 heq
    refine ⟨n1, w1, ?_, rfl⟩
    split at heq
    · exact checkJavaScript_shape heq
    · split at heq
      · exact checkPython_shape heq
      · simp only [Option.some.injEq, Prod.mk.injEq] at heq
        obtain ⟨hn, hw⟩ := heq
        subst hn; subst hw
        simp

/-- A single-file batch returns exactly that file's pushes. -/
theorem advise_single (env : Env) (f : FileChange) (op : List Char) :
    advise env (oneFileEvent f op) =
      { notifications := (processFile env f.filePath).1
        warnings := (processFile env f.filePath).2.1
        errors := [] } := by
  simp [advise, adviseFiles, oneFileEvent]

theorem processFile_no_longFunc (env : Env) (p b : List Char) :
    Msg.longFunc b ∉ (processFile env p).2.1 := by
  rcases processFile_cases env p with heq | ⟨ns, ws, ⟨_, hws⟩, heq⟩
  · rw [heq]
    simp
  · rw [heq]
    intro hmem
    rcases List.mem_append.mp hmem with h1 | h1
    · rcases List.mem_append.mp h1 with h2 | h2
      · have := hws _ h2
        simp [subcheckMsg] at this
      · have := missingTestWarns_mem h2
        simp at this
    · obtain ⟨n, hn⟩ := sizeWarns_mem h1
      simp at hn

/-- The loop concatenates per-file contributions in file order. -/
theorem adviseFiles_eq (env : Env) (fs : List FileChange) :
    adviseFiles env fs =
      ((fs.map (fun f => (processFile env f.filePath).1)).flatten,
       (fs.map (fun f => (processFile env f.filePath).2.1)).flatten) := by
  induction fs with
  | nil => rfl
  | cons f rest ih => simp [adviseFiles, ih]

/-! ## Claim C1: the long-function heuristic -/

/-- Claim C1, counterexample.  For the existing JS file `a.js` holding
`c1content`, the first matching named-function declaration is found, the
100-line window following it is fully consumed and its opening and closing
brace counts are equal — the claim's antecedent — yet `advise` emits no
`potentially long function` warning at all (its only warning is the
missing-test-file one), because the guard demands the re-split window to
exceed 100 lines while the window was just truncated to at most 100. -/
theorem C1_claim_counterexample :
    (jsFunctionMatches c1content).head? = some c1func
    ∧ ((splitNl (c1content.drop (indexOfSub c1content c1func))).take 100).length = 100
    ∧ countChar lbrace (funcWindow c1content c1func) =
        countChar rbrace (funcWindow c1content c1func)
    ∧ env1.fsExists (("a.js").data) = true
    ∧ (advise env1 ev1).warnings =
        [Msg.noTestFile (("a.js").data) (("a.test.js").data)] := by
  refine ⟨by decide, by decide, by decide, by decide, by decide⟩

/-- Claim C1, amended.  The long-function warning is dead code: on every
environment and every change event, no `potentially long function` warning
ever appears in the advisory result.  The guard
`lines.split('\n').length > 100` re-splits the window after it was truncated
to `slice(0, 100)` lines, so it can never hold. -/
theorem C1_long_function_warning_never_fires (env : Env) (ev : ChangeEvent)
    (b : List Char) : Msg.longFunc b ∉ (advise env ev).warnings := by
  simp only [advise]
  induction ev.files with
  | nil => simp [adviseFiles]
  | cons f rest ih =>
    simp only [adviseFiles]
    intro hmem
    rcases List.mem_append.mp hmem with h1 | h1
    · exact processFile_no_longFunc env f.filePath b h1
    · exact ih h1

/-! ## Claim C3: empty batch, empty result -/

/-- Claim C3.  For every environment and every change event with zero files,
`advise` returns an advisory result whose notifications, warnings and
errors are all empty. -/
theorem C3_empty_event_empty_result (env : Env) (op : List Char) :
    advise env { files := [], operation := op } =
      { notifications := [], warnings := [], errors := [] } := rfl

/-! ## Claim C7: per-file failure containment -/

/-- Claim C7, counterexample.  Analysis of `a/Main.java` fails (the size-check
read throws, and the failure is caught), yet the returned result carries an
advisory entry for that very file: the missing-test warning was pushed
before the failing read.  A caught per-file failure therefore does not
guarantee "no advisory entry for that file". -/
theorem C7_claim_counterexample :
    (processFile env7 (("a/Main.java").data)).2.2 = true
    ∧ (advise env7 ev7).warnings =
        [Msg.noTestFile (("Main.java").data) (("Main.test.java").data)] := by
  refine ⟨by decide, by decide⟩

/-- Claim C7, amended.  `advise` never propagates a per-file failure: on every
environment and event it returns a result; each file contributes exactly its
own pushed messages, in file order, independent of other files' failures
(a failing file contributes the entries pushed before its failure point —
possibly none, but not necessarily none); and failures never reach the
errors list.  The call returns this result even when every file's analysis
fails. -/
theorem C7_failures_never_propagate (env : Env) (ev : ChangeEvent) :
    advise env ev =
      { notifications := (ev.files.map (fun f => (processFile env f.filePath).1)).flatten
        warnings := (ev.files.map (fun f => (processFile env f.filePath).2.1)).flatten
        errors := [] } := by
  simp [advise, adviseFiles_eq]

/-! ## Claim C10: the errors list is invariantly empty -/

/-- Claim C10.  On every environment, filesystem/tool state and change event,
the errors sequence of the advisory result is empty: no code path of the
ChangeAdvisor or its sub-checks ever appends to it. -/
theorem C10_errors_always_empty (env : Env) (ev : ChangeEvent) :
    (advise env ev).errors = [] := rfl

/-! ## Claim C4: test-file advisories -/

/-- Claim C4, counterexample.  The path `tests/foo.js` has the path segment
`tests`, so the claim classifies it as a test file; but the source checks
the substring `/tests/` (slash on both sides), which a leading `tests`
segment lacks, so `advise` emits no test-file notification for it and does
emit a missing-test-file warning — the opposite of the claim on both
counts. -/
theorem C4_claim_counterexample :
    isTestFileSpec (("tests/foo.js").data) = true
    ∧ isTestFile (("tests/foo.js").data) = false
    ∧ (advise env4 ev4).notifications = []
    ∧ (advise env4 ev4).warnings =
        [Msg.noTestFile (("foo.js").data) (("foo.test.js").data)] := by
  refine ⟨by decide, by decide, by decide, by decide⟩

/-- Claim C4, amended.  For every file the *source's* `isTestFile` classifies
as a test file (lowercased base name containing `.test.`, `.spec.` or
`_test.` or starting with `test_`, or raw path containing `/tests/`,
`/test/` or `/__tests__/`), provided its read does not throw, `advise`
emits exactly one test-file notification for it and no missing-test-file
warning at all. -/
theorem C4_test_file_advisories (env : Env) (f : FileChange) (op : List Char)
    (htest : isTestFile f.filePath = true)
    (hread : env.fsExists f.filePath = true → env.readFile f.filePath ≠ none) :
    (advise env (oneFileEvent f op)).notifications.count
        (Msg.testFileModified (basename f.filePath)) = 1
    ∧ ∀ b t, Msg.noTestFile b t ∉
        (advise env (oneFileEvent f op)).warnings := by
  obtain ⟨ns, ws, ⟨hns, hws⟩, heq⟩ := processFile_decomp env f.filePath hread
  constructor
  · rw [advise_single]
    show ((processFile env f.filePath).1).count _ = 1
    rw [heq]
    show (ns ++ testNotes f.filePath).count _ = 1
    have h0 : ns.count (Msg.testFileModified (basename f.filePath)) = 0 := by
      rw [List.count_eq_zero]
      intro hmem
      have := hns _ hmem
      simp [subcheckMsg] at this
    simp [List.count_append, h0, testNotes, htest]
  · intro b t
    rw [advise_single]
    show Msg.noTestFile b t ∉ ((processFile env f.filePath).2.1)
    rw [heq]
    intro hmem
    rcases List.mem_append.mp hmem with h1 | h1
    · rcases List.mem_append.mp h1 with h2 | h2
      · have := hws _ h2
        simp [subcheckMsg] at this
      · simp [missingTestWarns, htest] at h2
    · obtain ⟨n, hn⟩ := sizeWarns_mem h1
      simp at hn

/-- Witness for C4 at the claim's own example `src/utils.test.js`. -/
theorem C4_test_file_advisories_witness :
    (advise envW4 evW4).notifications.count
        (Msg.testFileModified (("utils.test.js").data)) = 1
    ∧ ∀ b t, Msg.noTestFile b t ∉ (advise envW4 evW4).warnings :=
  C4_test_file_advisories envW4
    { filePath := ("src/utils.test.js").data, changeType := ChangeType.modified }
    (("write").data) (by decide) (by decide)

/-! ## Claim C5: the missing-test-file warning for `src/calc.js` -/

/-- Claim C5.  The conventional test path computed for `src/calc.js` is
exactly the primary candidate `src/calc.test.js`, and — whenever reading
`src/calc.js` does not throw — `advise` emits exactly one warning naming
`calc.test.js` precisely when that primary candidate does not exist on the
filesystem (no other candidate's existence is consulted: the warning is
determined by `fsExists` at the primary path alone). -/
theorem C5_missing_calc_test_warning (env : Env) (op : List Char)
    (ct : ChangeType) (c : List Char) (hread : env.readFile calcPath = some c) :
    getTestFilePath calcPath = ("src/calc.test.js").data
    ∧ (advise env (oneFileEvent { filePath := calcPath, changeType := ct } op)).warnings.count
        (Msg.noTestFile (("calc.js").data) (("calc.test.js").data)) =
      if env.fsExists (("src/calc.test.js").data) then 0 else 1 := by
  have hr : env.fsExists calcPath = true → env.readFile calcPath ≠ none := by
    intro _
    rw [hread]
    exact fun h => Option.noConfusion h
  obtain ⟨ns, ws, ⟨hns, hws⟩, heq⟩ := processFile_decomp env calcPath hr
  refine ⟨by decide, ?_⟩
  rw [advise_single]
  show ((processFile env calcPath).2.1).count _ = _
  rw [heq]
  show ((ws ++ missingTestWarns env calcPath) ++ sizeWarns env calcPath).count _ = _
  have h0 : ws.count (Msg.noTestFile (("calc.js").data) (("calc.test.js").data)) = 0 := by
    rw [List.count_eq_zero]
    intro hmem
    have := hws _ hmem
    simp [subcheckMsg] at this
  have hsz : (sizeWarns env calcPath).count
      (Msg.noTestFile (("calc.js").data) (("calc.test.js").data)) = 0 := by
    rw [List.count_eq_zero]
    intro hmem
    obtain ⟨n, hn⟩ := sizeWarns_mem hmem
    simp at hn
  rw [List.count_append, List.count_append, h0, hsz]
  have h1 : isTestFile calcPath = false := by decide
  have h2 : isSourceFile calcPath = true := by decide
  have h3 : getTestFilePath calcPath = ("src/calc.test.js").data := by decide
  have h4 : basename calcPath = ("calc.js").data := by decide
  simp only [missingTestWarns, h1, h2, h3, h4]
  cases hfs : env.fsExists (("src/calc.test.js").data) <;> simp [basename]

/-- Witness for C5: with `src/calc.test.js` absent, exactly one warning
naming `calc.test.js`. -/
theorem C5_missing_calc_test_warning_witness :
    getTestFilePath calcPath = ("src/calc.test.js").data
    ∧ (advise envW5 (oneFileEvent { filePath := calcPath, changeType := ChangeType.modified }
          (("write").data))).warnings.count
        (Msg.noTestFile (("calc.js").data) (("calc.test.js").data)) = 1 :=
  C5_missing_calc_test_warning envW5 (("write").data) ChangeType.modified [] (by decide)

theorem subcheckMsg_not_size {m : Msg} (h : subcheckMsg m = true) :
    isSizeMsg m = false := by
  cases m <;> simp [subcheckMsg, isSizeMsg] at h ⊢

/-! ## Claim C6: the size-warning boundary -/

/-- Claim C6.  For every existing file whose read succeeds, `advise` emits the
size-decomposition warning exactly when the newline-delimited line count of
its content exceeds 600: one such warning when `600 < lines`, none
otherwise. -/
theorem C6_size_warning_boundary (env : Env) (f : FileChange) (op : List Char)
    (c : List Char) (hex : env.fsExists f.filePath = true)
    (hread : env.readFile f.filePath = some c) :
    ((advise env (oneFileEvent f op)).warnings.countP isSizeMsg) =
      if 600 < (splitNl c).length then 1 else 0 := by
  have hr : env.fsExists f.filePath = true → env.readFile f.filePath ≠ none := by
    intro _
    rw [hread]
    exact fun h => Option.noConfusion h
  obtain ⟨ns, ws, ⟨hns, hws⟩, heq⟩ := processFile_decomp env f.filePath hr
  rw [advise_single]
  show ((processFile env f.filePath).2.1).countP isSizeMsg = _
  rw [heq]
  show ((ws ++ missingTestWarns env f.filePath) ++ sizeWarns env f.filePath).countP
      isSizeMsg = _
  have h0 : ws.countP isSizeMsg = 0 := by
    rw [List.countP_eq_zero]
    intro m hm
    exact fun hh => by rw [subcheckMsg_not_size (hws _ hm)] at hh; exact Bool.noConfusion hh
  have h1 : (missingTestWarns env f.filePath).countP isSizeMsg = 0 := by
    rw [List.countP_eq_zero]
    intro m hm
    rw [missingTestWarns_mem hm]
    simp [isSizeMsg]
  rw [List.countP_append, List.countP_append, h0, h1]
  simp only [sizeWarns, hex, if_true, hread]
  split <;> simp [isSizeMsg]

set_option maxRecDepth 4000 in
/-- Witness for C6 at both sides of the boundary: 601 lines warn once,
600 lines do not. -/
theorem C6_size_warning_boundary_witness :
    ((advise env6 (oneFileEvent { filePath := ("a/b.go").data, changeType := ChangeType.modified }
        (("write").data))).warnings.countP isSizeMsg = 1)
    ∧ ((advise env6 (oneFileEvent { filePath := ("c/d.go").data, changeType := ChangeType.modified }
        (("write").data))).warnings.countP isSizeMsg = 0) := by
  constructor
  · rw [C6_size_warning_boundary env6
      { filePath := ("a/b.go").data, changeType := ChangeType.modified }
      (("write").data) (List.replicate 600 '\n') (by decide) (by decide)]
    decide
  · rw [C6_size_warning_boundary env6
      { filePath := ("c/d.go").data, changeType := ChangeType.modified }
      (("write").data) (List.replicate 599 '\n') (by decide) (by decide)]
    decide

/-! ## Claim C2: first-match intent order -/

/-- Claim C2.  `classify` returns the first intent whose pattern matches in
the fixed order codeReview, refactoring, testing; in particular a prompt
matching the codeReview pattern is classified codeReview no matter what else
matches, and `"please refactor this messy function"` is classified
refactoring, whose two fixed tips land under the `suggestions` key. -/
theorem C2_first_match_wins :
    (∀ p, detectIntent p =
        if matchCodeReview p then Intent.codeReview
        else if matchRefactoring p then Intent.refactoring
        else if matchTesting p then Intent.testing
        else Intent.general)
    ∧ (∀ p, matchCodeReview p = true → detectIntent p = Intent.codeReview)
    ∧ detectIntent refactorPrompt = Intent.refactoring
    ∧ (classify { prompt := refactorPrompt, metadata := fun _ => none }).metadata
        (("suggestions").data) = some (MVal.strList (suggestionsFor Intent.refactoring))
    ∧ (suggestionsFor Intent.refactoring).length = 2 := by
  refine ⟨fun p => rfl, ?_, by decide, by decide, by decide⟩
  intro p h
  simp [detectIntent, detectLoop, patternList, h]

/-- Witness for C2: `"review and refactor"` matches both the codeReview and
the refactoring patterns and resolves to codeReview. -/
theorem C2_first_match_wins_witness :
    detectIntent (("review and refactor").data) = Intent.codeReview :=
  C2_first_match_wins.2.1 (("review and refactor").data) (by decide)

/-! ## Claim C8: metadata passthrough -/

/-- Claim C8.  The returned metadata is the shallow union of the input
metadata with `detectedIntent` and (if non-empty) `suggestions`: every key
other than those two survives with its value unchanged, and the two added
keys win on collision; the `{a: 1}` example keeps `a: 1` alongside
`detectedIntent`. -/
theorem C8_metadata_shallow_union (m : Meta) (p k : List Char) :
    (k ≠ ("detectedIntent").data → k ≠ ("suggestions").data →
      (classify { prompt := p, metadata := m }).metadata k = m k)
    ∧ (classify { prompt := p, metadata := m }).metadata (("detectedIntent").data) =
        some (MVal.str (intentName (detectIntent p)))
    ∧ (classify { prompt := p, metadata := m }).metadata (("suggestions").data) =
        (if suggestionsFor (detectIntent p) ≠ [] then
          some (MVal.strList (suggestionsFor (detectIntent p))) else none)
    ∧ (classify { prompt := ("hello").data, metadata := metaA1 }).metadata
        (("a").data) = some (MVal.nat 1)
    ∧ (classify { prompt := ("hello").data, metadata := metaA1 }).metadata
        (("detectedIntent").data) = some (MVal.str (("general").data)) := by
  refine ⟨?_, ?_, ?_, by decide, by decide⟩
  · intro h1 h2
    dsimp only [classify, classifyMeta]
    rw [if_neg h2, if_neg h1]
  · dsimp only [classify, classifyMeta]
    rw [if_neg (by decide), if_pos rfl]
  · dsimp only [classify, classifyMeta]
    rw [if_pos rfl]

/-- Witness for C8: the unrelated key `a` survives classification. -/
theorem C8_metadata_shallow_union_witness :
    (classify { prompt := ("hi").data, metadata := metaA1 }).metadata (("a").data) =
      metaA1 (("a").data) :=
  (C8_metadata_shallow_union metaA1 (("hi").data) (("a").data)).1
    (by decide) (by decide)

/-! ## Claim C9: the `general` fallback -/

/-- Claim C9.  A prompt matching none of the three patterns — the empty
prompt and `"hello"` among them — classifies as `general`, with no
`suggestions` key in the output metadata (the key is bound to `undefined`,
which property reads and serialization cannot distinguish from absence);
pattern-match failure is never an error. -/
theorem C9_general_fallback (p : List Char) (m : Meta)
    (h1 : matchCodeReview p = false) (h2 : matchRefactoring p = false)
    (h3 : matchTesting p = false) :
    detectIntent p = Intent.general
    ∧ (classify { prompt := p, metadata := m }).metadata (("suggestions").data) = none
    ∧ detectIntent (("hello").data) = Intent.general
    ∧ detectIntent [] = Intent.general := by
  have hd : detectIntent p = Intent.general := by
    simp [detectIntent, detectLoop, patternList, h1, h2, h3]
  refine ⟨hd, ?_, by decide, by decide⟩
  dsimp only [classify, classifyMeta]
  rw [hd, if_pos rfl]
  simp [suggestionsFor]

/-- Witness for C9 at the prompt `"hello"`. -/
theorem C9_general_fallback_witness :
    detectIntent (("hello").data) = Intent.general
    ∧ (classify { prompt := ("hello").data, metadata := metaA1 }).metadata
        (("suggestions").data) = none
    ∧ detectIntent (("hello").data) = Intent.general
    ∧ detectIntent [] = Intent.general :=
  C9_general_fallback (("hello").data) metaA1 (by decide) (by decide) (by decide)

end DevAccel
